import Mathlib

/-!
# Verification of the flac-rs callback-bridge layer

A shallow embedding, in Lean 4, of the pure data-marshaling logic of the
`flac-rs` repository (`src/flac.rs`): bit-depth scale-up, the decoder's
tag-merge algorithm, and the encoder bridge's state-guarded operations.
Interactions with the external codec engine (libFLAC FFI calls) are out of
scope for the repository itself and are modelled as an oracle environment
recording which engine entry points were invoked and with what data.

Rust strings at the tag boundary are modelled as lists of characters, Rust
`u32` arithmetic as `Nat` with an explicit modulus `2 ^ 32`, and `i32`
values as `Int` with explicit wrapping where the source casts.
-/

set_option autoImplicit false

namespace FlacRs

/-- The modulus of Rust `u32` arithmetic. -/
def U32MOD : Nat := 2 ^ 32

/-- Rust `v as u32` on an `i32` value: reinterpret as an unsigned 32-bit word. -/
def wrap32 (v : Int) : Nat := (v % (U32MOD : Int)).toNat

/-- Rust `w as i32` on a `u32` word `w < 2 ^ 32`: reinterpret as a signed value. -/
def toI32 (w : Nat) : Int := if w < 2 ^ 31 then (w : Int) else (w : Int) - (U32MOD : Int)

/-- Embeds the inner helper `scale_to_unsigned` of `scale_to_i32`
(src/flac.rs, decoder write callback): re-bias the sample by the N-bit
midpoint with wrapping `u32` addition, mask to the low `bits` bits, and
shift the masked value into the high bits of the 32-bit word. -/
def scale_to_unsigned (sample : Int) (bits : Nat) : Nat :=
  let mask := (1 <<< bits) - 1
  let mid_number := 1 <<< (bits - 1)
  (((wrap32 sample + mid_number) % U32MOD) &&& mask) <<< (32 - bits)

/-- Embeds the `while lower_fill > 0` loop of `scale_to_i32`: repeatedly
right-shift `lower_fill` by `bits` and OR it into `result`. The source
only runs this with `1 <= bits <= 31` (guarded by the assert and the
`bits == 32` branch); the `0 < bits` conjunct makes that explicit so the
recursion is well founded. -/
def fill_loop (bits lower_fill result : Nat) : Nat :=
  if h : 0 < lower_fill ∧ 0 < bits then
    fill_loop bits (lower_fill >>> bits) (result ||| (lower_fill >>> bits))
  else
    result
termination_by lower_fill
decreasing_by
  rw [Nat.shiftRight_eq_div_pow]
  exact Nat.div_lt_self h.1 (Nat.one_lt_two_pow (by omega))

/-- Embeds `scale_to_i32` from src/flac.rs: scales a signed `bits`-bit PCM
sample held in an `i32` to the full `i32` dynamic range. The source asserts
`bits <= 32`; a call outside that range panics and is not modelled. -/
def scale_to_i32 (sample : Int) (bits : Nat) : Int :=
  if bits = 32 then
    sample
  else
    let lower_fill := scale_to_unsigned sample bits
    let result := (wrap32 sample <<< (32 - bits)) % U32MOD
    toI32 (fill_loop bits lower_fill result)

/-- Modelled from the spec's wording of the scale-up algorithm (§4.2),
using plain arithmetic (powers, `%`, `/`, `Nat.lor`) rather than the
source's bit operators: the re-biased value, an unsigned N-bit
representation obtained by adding the N-bit midpoint and reducing to N
bits, placed in the high bits of the word (the spec's replication clause
— "replicates the sample's own bit pattern into the low-order bits
instead of zero-filling" — requires the biased pattern to start at the
top of the word). -/
def spec_rebias (v : Int) (n : Nat) : Nat :=
  ((wrap32 v + 2 ^ (n - 1)) % 2 ^ 32 % 2 ^ n) * 2 ^ (32 - n)

/-- Modelled from the spec: repeatedly right-shift the biased value by
`n` bits (division by `2 ^ n`) and OR it into the low bits of the
accumulator until the biased remainder reaches zero. -/
def spec_fill (n biased acc : Nat) : Nat :=
  if h : 0 < biased ∧ 0 < n then
    spec_fill n (biased / 2 ^ n) (Nat.lor acc (biased / 2 ^ n))
  else
    acc
termination_by biased
decreasing_by
  exact Nat.div_lt_self h.1 (Nat.one_lt_two_pow (by omega))

/-- Modelled from the spec §4.2: the whole scale-up — identity at N = 32,
otherwise the original signed value is shifted by `32 - n` into the high
bits (truncated to 32 bits, as `u32` shifting discards overflow) and the
lower bits are filled from the biased value. -/
def spec_scale_up (v : Int) (n : Nat) : Int :=
  if n = 32 then
    v
  else
    toI32 (spec_fill n (spec_rebias v n) (wrap32 v * 2 ^ (32 - n) % 2 ^ 32))

theorem fill_loop_eq_spec_fill (bits lf acc : Nat) :
    fill_loop bits lf acc = spec_fill bits lf acc := by
  induction lf using Nat.strong_induction_on generalizing acc with
  | _ lf ih =>
    rw [fill_loop, spec_fill]
    split
    case isTrue h =>
      rw [Nat.shiftRight_eq_div_pow]
      exact ih (lf / 2 ^ bits)
        (Nat.div_lt_self h.1 (Nat.one_lt_two_pow (by omega))) _
    case isFalse h => rfl

theorem scale_to_unsigned_eq_spec_rebias (v : Int) (n : Nat) :
    scale_to_unsigned v n = spec_rebias v n := by
  unfold scale_to_unsigned spec_rebias
  rw [Nat.shiftLeft_eq, Nat.shiftLeft_eq, Nat.shiftLeft_eq, one_mul, one_mul,
    Nat.and_pow_two_sub_one_eq_mod]
  rfl

/-- C1: for every 32-bit signed sample `v` and bit depth `n` with
`1 ≤ n ≤ 32`, the decoder's scale-up function `scale_to_i32` returns
exactly the value of the spec's algorithm (`spec_scale_up`: re-bias, place
in high bits, replicate into the low bits by repeated right-shift-and-OR),
and at `n = 32` it is the identity. Both sides are pure integer
arithmetic, so there is no platform-dependent rounding. -/
theorem C1_scale_to_i32_matches_spec (v : Int) (n : Nat)
    (hlo : -(2 ^ 31) ≤ v) (hhi : v < 2 ^ 31) (h1 : 1 ≤ n) (h2 : n ≤ 32) :
    scale_to_i32 v n = spec_scale_up v n ∧ scale_to_i32 v 32 = v := by
  constructor
  · unfold scale_to_i32 spec_scale_up
    split
    · rfl
    · rw [scale_to_unsigned_eq_spec_rebias]
      simp only [fill_loop_eq_spec_fill, Nat.shiftLeft_eq]
      rfl
  · simp [scale_to_i32]

/-- Witness for C1 at the concrete sample `-128` with bit depth `8`. -/
theorem C1_scale_to_i32_matches_spec_witness :
    (-(2 ^ 31) ≤ (-128 : Int) ∧ (-128 : Int) < 2 ^ 31 ∧ 1 ≤ 8 ∧ 8 ≤ 32) ∧
      (scale_to_i32 (-128) 8 = spec_scale_up (-128) 8 ∧ scale_to_i32 (-128) 32 = -128) :=
  ⟨by refine ⟨by decide, by decide, by decide, by decide⟩,
    C1_scale_to_i32_matches_spec (-128) 8 (by decide) (by decide) (by decide) (by decide)⟩

/-! ## Decoder tag merge (`metadata_callback`, VORBIS_COMMENT branch) -/

/-- Rust strings at the tag boundary, modelled as character lists. -/
abbrev Str := List Char

/-- Rust `str::to_uppercase`, modelled by the per-character upper-case map
(faithful for the ASCII keys of the tag namespace). -/
def strUpper (s : Str) : Str := s.map Char.toUpper

/-- Rust `str::split("=")`: split on every occurrence of `=`. Like the
Rust iterator, the result is never empty — an input with no `=` yields a
one-element list holding the whole input. -/
def splitEq : Str → List Str
  | [] => [[]]
  | c :: rest =>
    if c = '=' then [] :: splitEq rest
    else
      match splitEq rest with
      | [] => [[c]]
      | s :: ss => (c :: s) :: ss

/-- Rust `Vec::join("=")`: re-join the pieces after the first with `=`. -/
def joinEq : List Str → Str
  | [] => []
  | [s] => s
  | s :: rest => s ++ '=' :: joinEq rest

/-- `BTreeMap::insert` on an association-list model of the decoder's tag
map: returns the previous value for the key, if any, together with the
updated map. A present key has its value replaced in place; an absent key
is appended. The claims depend only on lookup behaviour, which this model
shares with the B-tree map. -/
def mapInsert (m : List (Str × Str)) (k v : Str) : Option Str × List (Str × Str) :=
  match m.lookup k with
  | some old => (some old, m.map fun p => if p.1 = k then (k, v) else p)
  | none => (none, m ++ [(k, v)])

/-- The decoder's accumulated tag data (`FlacDecoderUnmovable` fields
`vendor_string` and `comments`), together with the two `eprintln` streams
of the tags branch, modelled as lists: `dup_log` records the key of every
overwriting duplicate insert, `invalid_log` the entries reported by the
"Invalid comment" arm. -/
structure DecoderTags where
  vendor_string : Option Str
  comments : List (Str × Str)
  dup_log : List Str
  invalid_log : List Str

/-- The accumulator as set up by `FlacDecoderUnmovable::new`. -/
def DecoderTags.init : DecoderTags :=
  { vendor_string := none, comments := [], dup_log := [], invalid_log := [] }

/-- Embeds the per-entry body of the decoder's tags loop: split the entry
on `=`, take the first piece as the literal key and re-join the rest as
the value, stage an upper-cased duplicate when the key is not already
upper-case, then insert the literal key (logging an overwrite). The `[]`
arm mirrors the source's `else` arm ("Invalid comment", nothing
inserted); `splitEq` never returns `[]`, so that arm is dead code — the
subject of C4. -/
def process_comment (acc : DecoderTags × List (Str × Str)) (comment : Str) :
    DecoderTags × List (Str × Str) :=
  let st := acc.1
  let ups := acc.2
  match splitEq comment with
  | [] => ({ st with invalid_log := st.invalid_log ++ [comment] }, ups)
  | key :: rest =>
    let val := joinEq rest
    let key_upper := strUpper key
    let ups := if key ≠ key_upper then ups ++ [(key_upper, val)] else ups
    let inserted := mapInsert st.comments key val
    let dup_log := match inserted.1 with
      | some _ => st.dup_log ++ [key]
      | none => st.dup_log
    ({ st with comments := inserted.2, dup_log := dup_log }, ups)

/-- Embeds the second loop of the tags branch: each staged upper-cased
duplicate is inserted only if its key is not already present. -/
def merge_uppercase (m : List (Str × Str)) (ups : List (Str × Str)) : List (Str × Str) :=
  ups.foldl (fun m kv => if (m.lookup kv.1).isSome then m else (mapInsert m kv.1 kv.2).2) m

/-- Embeds the `FLAC__METADATA_TYPE_VORBIS_COMMENT` arm of the decoder's
`metadata_callback`: store the block's vendor string (unconditionally —
the subject of C3), process every comment entry in order, then merge the
staged upper-cased duplicates. -/
def vorbis_comment_callback (st : DecoderTags) (vendor : Str) (entries : List Str) :
    DecoderTags :=
  let st1 := { st with vendor_string := some vendor }
  let folded := entries.foldl process_comment (st1, [])
  { folded.1 with comments := merge_uppercase folded.1.comments folded.2 }

/-- The literal key and value of each entry, as the source's split
extracts them (first piece, rest re-joined with `=`). The `none` arm is
dead because `splitEq` never returns `[]`. -/
def entry_key_vals (entries : List Str) : List (Str × Str) :=
  entries.filterMap fun c =>
    match splitEq c with
    | [] => none
    | k :: rest => some (k, joinEq rest)

/-- Modelled from the spec §4.3 (decode direction, tags), phase one: each
entry's literal key is inserted with its value, the later of two equal
literal keys overwriting the earlier. -/
def spec_literal_inserts (m : List (Str × Str)) (kvs : List (Str × Str)) :
    List (Str × Str) :=
  kvs.foldl (fun m kv => (mapInsert m kv.1 kv.2).2) m

/-- Modelled from the spec: the upper-cased duplicates staged while
processing — one per entry whose literal key is not already upper-case,
carrying the same value. -/
def spec_staged (kvs : List (Str × Str)) : List (Str × Str) :=
  kvs.filterMap fun kv =>
    if kv.1 ≠ strUpper kv.1 then some (strUpper kv.1, kv.2) else none

/-- Modelled from the spec: after all entries are processed, each staged
upper-cased duplicate is inserted only if that upper-case key is not
already present (an absent key is appended to the map). -/
def spec_tag_merge (m : List (Str × Str)) (kvs : List (Str × Str)) : List (Str × Str) :=
  (spec_staged kvs).foldl
    (fun m kv => if (m.lookup kv.1).isSome then m else m ++ [kv])
    (spec_literal_inserts m kvs)

theorem splitEq_ne_nil (c : Str) : splitEq c ≠ [] := by
  induction c with
  | nil => simp [splitEq]
  | cons x rest ih =>
    rw [splitEq]
    split
    · simp
    · split
      · simp
      · simp

theorem foldl_process_comment_comments (entries : List Str) (st : DecoderTags)
    (ups : List (Str × Str)) :
    (entries.foldl process_comment (st, ups)).1.comments
      = spec_literal_inserts st.comments (entry_key_vals entries) := by
  induction entries generalizing st ups with
  | nil => simp [spec_literal_inserts, entry_key_vals]
  | cons e es ih =>
    cases h : splitEq e with
    | nil => exact absurd h (splitEq_ne_nil e)
    | cons k rest =>
      rw [List.foldl_cons, show process_comment (st, ups) e = _ from rfl]
      simp only [process_comment, h]
      rw [ih]
      simp [entry_key_vals, h, spec_literal_inserts]

theorem foldl_process_comment_staged (entries : List Str) (st : DecoderTags)
    (ups : List (Str × Str)) :
    (entries.foldl process_comment (st, ups)).2
      = ups ++ spec_staged (entry_key_vals entries) := by
  induction entries generalizing st ups with
  | nil => simp [spec_staged, entry_key_vals]
  | cons e es ih =>
    cases h : splitEq e with
    | nil => exact absurd h (splitEq_ne_nil e)
    | cons k rest =>
      rw [List.foldl_cons]
      simp only [process_comment, h]
      rw [ih]
      by_cases hk : k ≠ strUpper k
      · simp [entry_key_vals, h, spec_staged, hk]
      · simp [entry_key_vals, h, spec_staged, hk]

theorem foldl_process_comment_vendor (entries : List Str) (st : DecoderTags)
    (ups : List (Str × Str)) :
    (entries.foldl process_comment (st, ups)).1.vendor_string = st.vendor_string := by
  induction entries generalizing st ups with
  | nil => rfl
  | cons e es ih =>
    cases h : splitEq e with
    | nil =>
      rw [List.foldl_cons]
      simp only [process_comment, h]
      exact ih _ _
    | cons k rest =>
      rw [List.foldl_cons]
      simp only [process_comment, h]
      exact ih _ _

theorem merge_uppercase_eq_spec (ups : List (Str × Str)) (m : List (Str × Str)) :
    merge_uppercase m ups
      = ups.foldl (fun m kv => if (m.lookup kv.1).isSome then m else m ++ [kv]) m := by
  induction ups generalizing m with
  | nil => rfl
  | cons kv rest ih =>
    rw [merge_uppercase, List.foldl_cons, List.foldl_cons]
    rw [show (List.foldl _ _ rest : List (Str × Str)) = merge_uppercase _ rest from rfl, ih]
    cases h : (m.lookup kv.1) with
    | some old => simp [h]
    | none => simp [h, mapInsert]

/-- Concrete strings used by the example clauses of the tag claims. -/
def exV : Str := "V".toList

def exTitleFoo : Str := "Title=Foo".toList

def exTITLEBar : Str := "TITLE=Bar".toList

def exTitle : Str := "Title".toList

def exTITLE : Str := "TITLE".toList

def exFooVal : Str := "Foo".toList

def exBarVal : Str := "Bar".toList

def extitleFoo : Str := "title=Foo".toList

def extitle : Str := "title".toList

def exA1 : Str := "A=1".toList

def exA2 : Str := "A=2".toList

def exA : Str := "A".toList

def exTwo : Str := "2".toList

def exVendorA : Str := "VendorA".toList

def exVendorB : Str := "VendorB".toList

/-- C2: the tags branch of the decoder's `metadata_callback` produces
exactly the spec's merge — every literal key inserted in order with the
later duplicate overwriting (and logged), an upper-cased duplicate staged
for every non-upper-case literal key, and each staged duplicate inserted
after the loop only if its key is absent. In particular
`Title=Foo` then `TITLE=Bar` yields both `Title→Foo` and `TITLE→Bar`;
`title=Foo` alone yields both `title→Foo` and `TITLE→Foo`; and
`A=1` then `A=2` yields `A→2` with the duplicate logged. -/
theorem C2_tag_merge_matches_spec (st : DecoderTags) (vendor : Str) (entries : List Str) :
    (vorbis_comment_callback st vendor entries).comments
      = spec_tag_merge st.comments (entry_key_vals entries) ∧
    ((vorbis_comment_callback DecoderTags.init exV
        [exTitleFoo, exTITLEBar]).comments.lookup exTitle = some exFooVal ∧
      (vorbis_comment_callback DecoderTags.init exV
        [exTitleFoo, exTITLEBar]).comments.lookup exTITLE = some exBarVal) ∧
    ((vorbis_comment_callback DecoderTags.init exV
        [extitleFoo]).comments.lookup extitle = some exFooVal ∧
      (vorbis_comment_callback DecoderTags.init exV
        [extitleFoo]).comments.lookup exTITLE = some exFooVal) ∧
    ((vorbis_comment_callback DecoderTags.init exV
        [exA1, exA2]).comments.lookup exA = some exTwo ∧
      (vorbis_comment_callback DecoderTags.init exV
        [exA1, exA2]).dup_log = [exA]) := by
  refine ⟨?_, ⟨by decide, by decide⟩, ⟨by decide, by decide⟩, ⟨by decide, by decide⟩⟩
  simp only [vorbis_comment_callback]
  rw [foldl_process_comment_comments, foldl_process_comment_staged, merge_uppercase_eq_spec]
  simp [spec_tag_merge]

/-- C3 counterexample: two tags blocks arriving with vendor strings
`VendorA` then `VendorB` do not leave the first vendor string in place —
the second block overwrites it, refuting "the first tags block that
arrives sets it, and any vendor string carried by a later tags block
leaves the already-stored vendor string unchanged". -/
theorem C3_vendor_first_wins_counterexample :
    (vorbis_comment_callback
        (vorbis_comment_callback DecoderTags.init exVendorA [])
        exVendorB []).vendor_string
      ≠ (vorbis_comment_callback DecoderTags.init exVendorA []).vendor_string := by
  decide

/-- C3 amended: every tags block overwrites the accumulated vendor
string, so the most recently arrived block's vendor string wins. -/
theorem C3_vendor_last_wins (st : DecoderTags) (vendor : Str) (entries : List Str) :
    (vorbis_comment_callback st vendor entries).vendor_string = some vendor := by
  simp only [vorbis_comment_callback]
  exact foldl_process_comment_vendor entries _ []

/-- C4: the source means to report and drop a tag entry with no `=` (the
"Invalid comment" arm), but Rust's `split` always yields the whole input
as its first piece, so that arm is unreachable: the entry `Foo` is
inserted as key `Foo` with the empty value (and an upper-cased duplicate
is even staged), and nothing is reported. -/
theorem C4_entry_without_equals_is_inserted :
    splitEq exFooVal = [exFooVal] ∧
    (vorbis_comment_callback DecoderTags.init exV
        [exFooVal]).comments.lookup exFooVal = some [] ∧
    (vorbis_comment_callback DecoderTags.init exV
        [exFooVal]).invalid_log = [] :=
  ⟨by decide, by decide, by decide⟩

/-! ## Encoder bridge (`FlacEncoderUnmovable` and the `FlacEncoder` wrapper)

The libFLAC engine and the output writer are the out-of-scope
collaborators; their entry points are modelled by an oracle environment
(`EncEnv`) fixing each call's success, and every invocation the bridge
makes is recorded in a trace of `EngineCall` values. -/

/-- One index point of a cue track (`FlacCueSheetIndex`). -/
structure FlacCueSheetIndex where
  offset : Nat
  number : Nat
deriving DecidableEq

/-- One cue track (`FlacCueTrack`); the 13-byte ISRC is a byte list. -/
structure FlacCueTrack where
  offset : Nat
  track_no : Nat
  isrc : List Int
  is_audio : Bool
  pre_emphasis : Bool
  indices : List FlacCueSheetIndex
deriving DecidableEq

/-- A staged cue sheet (`FlacCueSheet`); the ordered-by-track-number
`BTreeMap` of tracks is an association list keyed by track number. -/
structure FlacCueSheet where
  media_catalog_number : List Int
  lead_in : Nat
  is_cd : Bool
  tracks : List (Nat × FlacCueTrack)
deriving DecidableEq

/-- A staged or decoded picture (`PictureData`). -/
structure PictureData where
  picture : List Nat
  mime_type : Str
  description : Str
  width : Nat
  height : Nat
  depth : Nat
  colors : Nat
deriving DecidableEq

/-- The engine and writer invocations the bridge can make. -/
inductive EngineCall where
  | processInterleaved (samples : List Int) (frames : Nat)
  | processChannels (channels : List (List Int)) (samples : Nat)
  | finishEngine
  | writerSeekEnd
deriving DecidableEq

/-- Error payload of `FlacEncoderError` / `FlacEncoderInitError`: the
numeric status constants live in the external libFLAC bindings, so the
code spaces are modelled symbolically; `function` is the reporting
operation's name, exactly as the source spells it. -/
inductive EncErrorKind where
  | framingError
  | alreadyInitialized
  | ioError
  | engineStatus (code : Nat)
deriving DecidableEq

structure EncError where
  kind : EncErrorKind
  function : String
deriving DecidableEq

/-- Outcome of a bridge operation: success, a structured error, or
abrupt termination (a Rust panic — a caller contract violation). -/
inductive EncOutcome where
  | ok
  | err (e : EncError)
  | panicked (msg : String)
deriving DecidableEq

/-- The fields of `FlacEncoderUnmovable` the claims depend on: the
configured channel count (`params.channels`), the two state flags, and
the three staged-metadata buffers. -/
structure EncSt where
  channels : Nat
  encoder_initialized : Bool
  finished : Bool
  comments : List (Str × Str)
  cue_sheets : List FlacCueSheet
  pictures : List PictureData
deriving DecidableEq

/-- Oracle for the external engine and writer: the outcome of a
`process`/`process_interleaved` call, of the whole parameter-push and
`init_stream` sequence, of `FLAC__stream_encoder_finish`, of the
writer's seek-to-end, and the engine's queryable status code. -/
structure EncEnv where
  processOk : Bool
  initOk : Bool
  finishOk : Bool
  seekOk : Bool
  statusCode : Nat
deriving DecidableEq

/-- Embeds `FlacEncoderUnmovable::insert_comments`: guarded by the
already-initialized check; a duplicate key overwrites (the overwrite is
logged in the source, which does not alter the map semantics). -/
def FlacEncoderUnmovable.insert_comments (st : EncSt) (key value : Str) :
    EncOutcome × EncSt :=
  if st.encoder_initialized then
    (.err ⟨.alreadyInitialized, "FlacEncoderUnmovable::insert_comments"⟩, st)
  else
    (.ok, { st with comments := (mapInsert st.comments key value).2 })

/-- Embeds `FlacEncoderUnmovable::insert_cue_sheet` (whose error names
the operation `insert_cue_track`, as in the source). -/
def FlacEncoderUnmovable.insert_cue_sheet (st : EncSt) (cue_sheet : FlacCueSheet) :
    EncOutcome × EncSt :=
  if st.encoder_initialized then
    (.err ⟨.alreadyInitialized, "FlacEncoderUnmovable::insert_cue_track"⟩, st)
  else
    (.ok, { st with cue_sheets := st.cue_sheets ++ [cue_sheet] })

/-- Embeds `FlacEncoderUnmovable::add_picture` (whose error names the
operation `set_picture`, as in the source). -/
def FlacEncoderUnmovable.add_picture (st : EncSt) (p : PictureData) :
    EncOutcome × EncSt :=
  if st.encoder_initialized then
    (.err ⟨.alreadyInitialized, "FlacEncoderUnmovable::set_picture"⟩, st)
  else
    (.ok, { st with pictures := st.pictures ++ [p] })

/-- Embeds `FlacEncoderUnmovable::initialize`. After the
already-initialized guard the body is a fixed sequence of external
engine calls (parameter pushes, metadata construction, `init_stream`);
their collective success is the `initOk` oracle — any rejected parameter
returns the engine's status as an error with the state unchanged — and
the final `get_status_as_result` check reads `statusCode`. -/
def FlacEncoderUnmovable.init (st : EncSt) (env : EncEnv) : EncOutcome × EncSt :=
  if st.encoder_initialized then
    (.err ⟨.alreadyInitialized, "FlacEncoderUnmovable::init"⟩, st)
  else if env.initOk then
    let st1 : EncSt := { st with encoder_initialized := true, finished := false }
    if env.statusCode = 0 then (.ok, st1)
    else (.err ⟨.engineStatus env.statusCode, "FlacEncoderUnmovable::Init()"⟩, st1)
  else
    (.err ⟨.engineStatus env.statusCode, "FLAC__stream_encoder_init_stream"⟩, st)

/-- Embeds `FlacEncoder::initialize`, the user-facing wrapper: when the
raw bridge is already initialized it returns success without touching
it. The Boolean records whether the raw `initialize` ran. -/
def FlacEncoder.init (st : EncSt) (env : EncEnv) : (EncOutcome × EncSt) × Bool :=
  if st.encoder_initialized then ((.ok, st), false)
  else (FlacEncoderUnmovable.init st env, true)

/-- The result and trace of one `FLAC__stream_encoder_process_interleaved`
call (every interleaved submission site checks the call and wraps the
engine's current status on failure under this same operation name). -/
def engine_process_interleaved (env : EncEnv) (samples : List Int) (frames : Nat) :
    EncOutcome × List EngineCall :=
  (if env.processOk then .ok
   else .err ⟨.engineStatus env.statusCode, "FLAC__stream_encoder_process_interleaved"⟩,
   [.processInterleaved samples frames])

/-- Embeds `FlacEncoderUnmovable::write_interleaved_samples`. (At
`channels = 0` the source's remainder would panic; the claims only
concern the 1–8 configurations of the data model.) -/
def FlacEncoderUnmovable.write_interleaved_samples (st : EncSt) (env : EncEnv)
    (samples : List Int) : EncOutcome × List EngineCall :=
  if samples.isEmpty then (.ok, [])
  else if samples.length % st.channels ≠ 0 then
    (.err ⟨.framingError, "FlacEncoderUnmovable::write_interleaved_samples"⟩, [])
  else
    engine_process_interleaved env samples (samples.length / st.channels)

/-- Rust `((l as i64 + r as i64) / 2) as i32` from `write_stereos`:
64-bit averaging, `Int.tdiv` being Rust's truncation toward zero, then
the wrap back to `i32` performed by the `as i32` cast. -/
def mix_to_mono (l r : Int) : Int := toI32 (wrap32 (Int.tdiv (l + r) 2))

/-- The `write_frames` panic message (frame length mismatch). -/
def write_frames_panic_msg : String :=
  "On FlacEncoderUnmovable::write_frames(): a frame size does not match the encoder channels."

/-- The `write_monos` out-of-bounds panic on `monos[0]` (reachable only
in the degenerate zero-channel configuration). -/
def write_monos_panic_msg : String :=
  "index out of bounds: the len is 0 but the index is 0"

/-- The `write_stereos` panic message (true multi-channel target). -/
def write_stereos_panic_msg : String :=
  "Can not turn stereo audio into multi-channel audio."

/-- Embeds `FlacEncoderUnmovable::write_frames`: a frame whose length
differs from the configured channel count is a caller contract
violation — the source panics while flattening the frames, before the
engine is invoked. -/
def FlacEncoderUnmovable.write_frames (st : EncSt) (env : EncEnv)
    (frames : List (List Int)) : EncOutcome × List EngineCall :=
  if frames.isEmpty then (.ok, [])
  else if frames.all fun f => f.length = st.channels then
    engine_process_interleaved env frames.flatten frames.length
  else
    (.panicked write_frames_panic_msg, [])

mutual

/-- Embeds `FlacEncoderUnmovable::write_mono_channel`: submit directly at
one channel, duplicate each sample into a stereo pair at two, and into a
full frame otherwise. -/
def FlacEncoderUnmovable.write_mono_channel (st : EncSt) (env : EncEnv)
    (monos : List Int) : EncOutcome × List EngineCall :=
  if monos.isEmpty then (.ok, [])
  else if h1 : st.channels = 1 then
    engine_process_interleaved env monos monos.length
  else if h2 : st.channels = 2 then
    FlacEncoderUnmovable.write_stereos st env (monos.map fun m => (m, m))
  else
    FlacEncoderUnmovable.write_frames st env
      (monos.map fun m => List.replicate st.channels m)
termination_by if st.channels = 2 then 1 else 0
decreasing_by simp_all

/-- Embeds `FlacEncoderUnmovable::write_stereos`: downmix to mono at one
channel, interleave at two, and panic (caller contract violation) for
any other configuration. -/
def FlacEncoderUnmovable.write_stereos (st : EncSt) (env : EncEnv)
    (stereos : List (Int × Int)) : EncOutcome × List EngineCall :=
  if stereos.isEmpty then (.ok, [])
  else if h1 : st.channels = 1 then
    FlacEncoderUnmovable.write_mono_channel st env
      (stereos.map fun p => mix_to_mono p.1 p.2)
  else if h2 : st.channels = 2 then
    engine_process_interleaved env (stereos.flatMap fun p => [p.1, p.2]) stereos.length
  else
    (.panicked write_stereos_panic_msg, [])
termination_by if st.channels = 1 then 2 else 0
decreasing_by simp_all

end

/-- Embeds `FlacEncoderUnmovable::write_monos` (parallel per-channel
buffers). There is no empty-input guard: an outer length different from
the channel count — including the empty input whenever the channel count
is nonzero — is a framing error, and the source reads `monos[0]` before
the per-buffer length check (an out-of-bounds panic in the degenerate
zero-channel configuration). -/
def FlacEncoderUnmovable.write_monos (st : EncSt) (env : EncEnv)
    (monos : List (List Int)) : EncOutcome × List EngineCall :=
  if monos.length ≠ st.channels then
    (.err ⟨.framingError, "FlacEncoderUnmovable::write_monos"⟩, [])
  else
    match monos with
    | [] => (.panicked write_monos_panic_msg, [])
    | m0 :: _ =>
      if monos.all fun m => m.length = m0.length then
        (if env.processOk then .ok
         else .err ⟨.engineStatus env.statusCode, "FLAC__stream_encoder_process"⟩,
         [.processChannels monos m0.length])
      else
        (.err ⟨.framingError, "FlacEncoderUnmovable::write_monos"⟩, [])

/-- Embeds `FlacEncoderUnmovable::finish`: immediate success after a
successful finish; otherwise flush the engine, then reposition the
writer to the end of the stream — a reposition failure is an I/O error
and leaves `finished` unset. -/
def FlacEncoderUnmovable.finish (st : EncSt) (env : EncEnv) :
    EncOutcome × EncSt × List EngineCall :=
  if st.finished then (.ok, st, [])
  else if env.finishOk then
    if env.seekOk then
      (.ok, { st with finished := true }, [.finishEngine, .writerSeekEnd])
    else
      (.err ⟨.ioError, "self.writer.seek(SeekFrom::End(0))"⟩, st,
        [.finishEngine, .writerSeekEnd])
  else
    (.err ⟨.engineStatus env.statusCode, "FLAC__stream_encoder_finish"⟩, st,
      [.finishEngine])

/-- A two-channel encoder state with the engine already initialized and
the staging buffers empty, used as concrete input by several witnesses. -/
def exEncStInit : EncSt :=
  { channels := 2, encoder_initialized := true, finished := false,
    comments := [], cue_sheets := [], pictures := [] }

/-- A mono-configured, initialized encoder state. -/
def exEncStMono : EncSt :=
  { channels := 1, encoder_initialized := true, finished := false,
    comments := [], cue_sheets := [], pictures := [] }

/-- An oracle on which every engine and writer call succeeds. -/
def exEnvOk : EncEnv :=
  { processOk := true, initOk := true, finishOk := true, seekOk := true, statusCode := 0 }

/-- Reinterpreting an in-range `i32` value as `u32` and back is the
identity. -/
theorem toI32_wrap32 (x : Int) (hlo : -(2 ^ 31) ≤ x) (hhi : x < 2 ^ 31) :
    toI32 (wrap32 x) = x := by
  unfold toI32 wrap32 U32MOD
  split <;> omega

theorem tmod_neg_left (s : Int) : Int.tmod (-s) 2 = -Int.tmod s 2 := by
  have h1 := Int.tdiv_add_tmod s 2
  have h2 := Int.tdiv_add_tmod (-s) 2
  rw [Int.neg_tdiv] at h2
  omega

theorem tmod_two_bounds (s : Int) : -1 ≤ Int.tmod s 2 ∧ Int.tmod s 2 ≤ 1 := by
  have hneg := tmod_neg_left s
  rcases le_or_lt 0 s with h | h
  · have h2 := Int.tmod_nonneg 2 h
    have h3 := Int.tmod_lt_of_pos s (show (0 : Int) < 2 by norm_num)
    omega
  · have h2 := Int.tmod_nonneg 2 (show (0 : Int) ≤ -s by omega)
    have h3 := Int.tmod_lt_of_pos (-s) (show (0 : Int) < 2 by norm_num)
    omega

theorem tdiv_two_range (s : Int) (h1 : -(2 ^ 32) ≤ s) (h2 : s < 2 ^ 32) :
    -(2 ^ 31) ≤ Int.tdiv s 2 ∧ Int.tdiv s 2 < 2 ^ 31 := by
  have heq := Int.tdiv_add_tmod s 2
  have hb := tmod_two_bounds s
  have hneg := tmod_neg_left s
  rcases le_or_lt 0 s with hs | hs
  · have := Int.tmod_nonneg 2 hs
    omega
  · have h2 := Int.tmod_nonneg 2 (show (0 : Int) ≤ -s by omega)
    omega

/-- For in-range stereo samples, the source's mix is exactly the
truncated-toward-zero average: the intermediate sum cannot overflow the
64-bit accumulator and the final `as i32` cast is value-preserving. -/
theorem mix_to_mono_eq_tdiv (l r : Int)
    (hl1 : -(2 ^ 31) ≤ l) (hl2 : l < 2 ^ 31) (hr1 : -(2 ^ 31) ≤ r) (hr2 : r < 2 ^ 31) :
    mix_to_mono l r = Int.tdiv (l + r) 2 := by
  have h := tdiv_two_range (l + r) (by omega) (by omega)
  unfold mix_to_mono
  exact toI32_wrap32 _ h.1 h.2

/-- C5 counterexample: the parallel-channel submission `write_monos`,
called with the empty input on a two-channel configuration, returns a
framing error instead of success — so not all five submission variants
are no-ops on empty input. -/
theorem C5_write_monos_empty_counterexample :
    (FlacEncoderUnmovable.write_monos exEncStInit exEnvOk []).1 ≠ EncOutcome.ok := by
  decide

/-- C5 amended: the interleaved, mono, stereo and frame-major submission
variants are no-ops on empty input — success and no engine invocation,
for every channel configuration — while `write_monos`, which has no
empty-input guard, rejects the empty input with a framing error (and no
engine invocation) whenever the configured channel count is nonzero. -/
theorem C5_empty_input_noop (st : EncSt) (env : EncEnv) (h : 1 ≤ st.channels) :
    FlacEncoderUnmovable.write_interleaved_samples st env [] = (.ok, []) ∧
    FlacEncoderUnmovable.write_mono_channel st env [] = (.ok, []) ∧
    FlacEncoderUnmovable.write_stereos st env [] = (.ok, []) ∧
    FlacEncoderUnmovable.write_frames st env [] = (.ok, []) ∧
    FlacEncoderUnmovable.write_monos st env []
      = (.err ⟨.framingError, "FlacEncoderUnmovable::write_monos"⟩, []) := by
  refine ⟨?_, ?_, ?_, ?_, ?_⟩
  · simp [FlacEncoderUnmovable.write_interleaved_samples]
  · simp [FlacEncoderUnmovable.write_mono_channel]
  · simp [FlacEncoderUnmovable.write_stereos]
  · simp [FlacEncoderUnmovable.write_frames]
  · simp [FlacEncoderUnmovable.write_monos]
    omega

/-- Witness for C5 amended at the one-channel configuration. -/
theorem C5_empty_input_noop_witness :
    1 ≤ exEncStMono.channels ∧
      (FlacEncoderUnmovable.write_interleaved_samples exEncStMono exEnvOk [] = (.ok, []) ∧
        FlacEncoderUnmovable.write_mono_channel exEncStMono exEnvOk [] = (.ok, []) ∧
        FlacEncoderUnmovable.write_stereos exEncStMono exEnvOk [] = (.ok, []) ∧
        FlacEncoderUnmovable.write_frames exEncStMono exEnvOk [] = (.ok, []) ∧
        FlacEncoderUnmovable.write_monos exEncStMono exEnvOk []
          = (.err ⟨.framingError, "FlacEncoderUnmovable::write_monos"⟩, [])) :=
  ⟨by decide, C5_empty_input_noop exEncStMono exEnvOk (by decide)⟩

/-- On a mono configuration, `write_stereos` makes exactly one engine
submission carrying the mixed samples (or none for the empty input). -/
theorem write_stereos_mono_trace (st : EncSt) (env : EncEnv)
    (stereos : List (Int × Int)) (hch : st.channels = 1) :
    (FlacEncoderUnmovable.write_stereos st env stereos).2
      = if stereos.isEmpty then []
        else [.processInterleaved
          (stereos.map fun p => mix_to_mono p.1 p.2) stereos.length] := by
  cases stereos with
  | nil => simp [FlacEncoderUnmovable.write_stereos]
  | cons p ps =>
    rw [FlacEncoderUnmovable.write_stereos]
    simp only [hch, List.isEmpty_cons, Bool.false_eq_true, if_false, dif_pos]
    rw [FlacEncoderUnmovable.write_mono_channel]
    simp [hch, engine_process_interleaved]

/-- C6: stereo pairs submitted to a mono-configured encoder are each
mixed to the truncated-toward-zero 64-bit average of the pair before the
(single) engine submission, and the pair `(10, -10)` mixes to `0`. -/
theorem C6_stereo_downmix (st : EncSt) (env : EncEnv) (stereos : List (Int × Int))
    (hch : st.channels = 1)
    (hrange : ∀ p ∈ stereos,
      -(2 ^ 31) ≤ p.1 ∧ p.1 < 2 ^ 31 ∧ -(2 ^ 31) ≤ p.2 ∧ p.2 < 2 ^ 31) :
    ((FlacEncoderUnmovable.write_stereos st env stereos).2
        = if stereos.isEmpty then []
          else [.processInterleaved
            (stereos.map fun p => Int.tdiv (p.1 + p.2) 2) stereos.length]) ∧
      mix_to_mono 10 (-10) = 0 := by
  refine ⟨?_, by decide⟩
  rw [write_stereos_mono_trace st env stereos hch]
  have hmap : (stereos.map fun q => mix_to_mono q.1 q.2)
      = stereos.map fun q => Int.tdiv (q.1 + q.2) 2 := by
    apply List.map_congr_left
    intro q hq
    have hr := hrange q hq
    exact mix_to_mono_eq_tdiv q.1 q.2 hr.1 hr.2.1 hr.2.2.1 hr.2.2.2
  rw [hmap]

/-- Witness for C6 at the single stereo pair `(10, -10)`. -/
theorem C6_stereo_downmix_witness :
    (exEncStMono.channels = 1 ∧
      ∀ p ∈ [((10 : Int), (-10 : Int))],
        -(2 ^ 31) ≤ p.1 ∧ p.1 < 2 ^ 31 ∧ -(2 ^ 31) ≤ p.2 ∧ p.2 < 2 ^ 31) ∧
    (((FlacEncoderUnmovable.write_stereos exEncStMono exEnvOk [((10 : Int), (-10 : Int))]).2
        = if ([((10 : Int), (-10 : Int))] : List (Int × Int)).isEmpty then []
          else [.processInterleaved
            (([((10 : Int), (-10 : Int))] : List (Int × Int)).map
              fun p => Int.tdiv (p.1 + p.2) 2)
            ([((10 : Int), (-10 : Int))] : List (Int × Int)).length]) ∧
      mix_to_mono 10 (-10) = 0) :=
  ⟨⟨by decide, by decide⟩,
    C6_stereo_downmix exEncStMono exEnvOk [((10 : Int), (-10 : Int))] (by decide) (by decide)⟩

/-- C7: a frame-major input with any frame whose inner length differs
from the configured channel count makes `write_frames` panic (abrupt,
deterministic termination — not a recoverable error result) before any
engine submission. -/
theorem C7_frame_mismatch_is_fatal (st : EncSt) (env : EncEnv)
    (frames : List (List Int)) (h : ∃ f ∈ frames, f.length ≠ st.channels) :
    FlacEncoderUnmovable.write_frames st env frames
      = (.panicked write_frames_panic_msg, []) := by
  obtain ⟨f, hf, hne⟩ := h
  have h1 : frames.isEmpty = false := by
    cases frames with
    | nil => simp at hf
    | cons a l => simp
  have h2 : (frames.all fun f => f.length = st.channels) = false := by
    simp only [List.all_eq_false]
    exact ⟨f, hf, by simpa using hne⟩
  simp [FlacEncoderUnmovable.write_frames, h1, h2]

/-- Witness for C7: a single one-sample frame on a two-channel encoder. -/
theorem C7_frame_mismatch_is_fatal_witness :
    (∃ f ∈ [[(5 : Int)]], f.length ≠ exEncStInit.channels) ∧
      FlacEncoderUnmovable.write_frames exEncStInit exEnvOk [[(5 : Int)]]
        = (.panicked write_frames_panic_msg, []) :=
  ⟨⟨[(5 : Int)], by decide⟩,
    C7_frame_mismatch_is_fatal exEncStInit exEnvOk [[(5 : Int)]] ⟨[(5 : Int)], by decide⟩⟩

/-- C8: once the encoder is initialized, each of the three metadata
staging operations fails with the already-initialized error and returns
the state — tag mapping, cue-sheet sequence and picture sequence —
completely unchanged. -/
theorem C8_staging_locked_after_init (st : EncSt) (key value : Str)
    (cs : FlacCueSheet) (p : PictureData) (h : st.encoder_initialized = true) :
    FlacEncoderUnmovable.insert_comments st key value
      = (.err ⟨.alreadyInitialized, "FlacEncoderUnmovable::insert_comments"⟩, st) ∧
    FlacEncoderUnmovable.insert_cue_sheet st cs
      = (.err ⟨.alreadyInitialized, "FlacEncoderUnmovable::insert_cue_track"⟩, st) ∧
    FlacEncoderUnmovable.add_picture st p
      = (.err ⟨.alreadyInitialized, "FlacEncoderUnmovable::set_picture"⟩, st) := by
  refine ⟨?_, ?_, ?_⟩ <;>
    simp [FlacEncoderUnmovable.insert_comments, FlacEncoderUnmovable.insert_cue_sheet,
      FlacEncoderUnmovable.add_picture, h]

/-- Witness for C8 on an initialized two-channel encoder. -/
theorem C8_staging_locked_after_init_witness :
    exEncStInit.encoder_initialized = true ∧
      (FlacEncoderUnmovable.insert_comments exEncStInit exA exTwo
          = (.err ⟨.alreadyInitialized, "FlacEncoderUnmovable::insert_comments"⟩,
            exEncStInit) ∧
        FlacEncoderUnmovable.insert_cue_sheet exEncStInit ⟨[], 0, false, []⟩
          = (.err ⟨.alreadyInitialized, "FlacEncoderUnmovable::insert_cue_track"⟩,
            exEncStInit) ∧
        FlacEncoderUnmovable.add_picture exEncStInit ⟨[], [], [], 0, 0, 0, 0⟩
          = (.err ⟨.alreadyInitialized, "FlacEncoderUnmovable::set_picture"⟩,
            exEncStInit)) :=
  ⟨by decide,
    C8_staging_locked_after_init exEncStInit exA exTwo ⟨[], 0, false, []⟩
      ⟨[], [], [], 0, 0, 0, 0⟩ (by decide)⟩

/-- C9: calling initialize on an already-initialized encoder is a
success-returning no-op on the user-facing `FlacEncoder` wrapper (the
raw bridge is not invoked and the state is returned unchanged), while
the raw `FlacEncoderUnmovable` bridge returns the already-initialized
error with the state unchanged. -/
theorem C9_initialize_already_initialized (st : EncSt) (env : EncEnv)
    (h : st.encoder_initialized = true) :
    FlacEncoder.init st env = ((.ok, st), false) ∧
    FlacEncoderUnmovable.init st env
      = (.err ⟨.alreadyInitialized, "FlacEncoderUnmovable::init"⟩, st) := by
  constructor
  · simp [FlacEncoder.init, h]
  · simp [FlacEncoderUnmovable.init, h]

/-- Witness for C9 on an initialized two-channel encoder. -/
theorem C9_initialize_already_initialized_witness :
    exEncStInit.encoder_initialized = true ∧
      (FlacEncoder.init exEncStInit exEnvOk = ((.ok, exEncStInit), false) ∧
        FlacEncoderUnmovable.init exEncStInit exEnvOk
          = (.err ⟨.alreadyInitialized, "FlacEncoderUnmovable::init"⟩, exEncStInit)) :=
  ⟨by decide, C9_initialize_already_initialized exEncStInit exEnvOk (by decide)⟩

/-- C10: if a call to `finish` succeeds, any later `finish` on the
resulting state is a pure no-op — it returns success, leaves the state
unchanged, and makes no engine or writer invocation, whatever the later
oracle says. -/
theorem C10_finish_idempotent (st : EncSt) (env env2 : EncEnv)
    (h : (FlacEncoderUnmovable.finish st env).1 = .ok) :
    FlacEncoderUnmovable.finish (FlacEncoderUnmovable.finish st env).2.1 env2
      = (.ok, (FlacEncoderUnmovable.finish st env).2.1, []) := by
  by_cases hf : st.finished
  · simp [FlacEncoderUnmovable.finish, hf]
  · by_cases hfo : env.finishOk
    · by_cases hs : env.seekOk
      · simp [FlacEncoderUnmovable.finish, hf, hfo, hs]
      · exact absurd h (by simp [FlacEncoderUnmovable.finish, hf, hfo, hs])
    · exact absurd h (by simp [FlacEncoderUnmovable.finish, hf, hfo])

/-- Witness for C10: a successful first finish on a fresh initialized
encoder, followed by a second finish under an all-failing oracle. -/
theorem C10_finish_idempotent_witness :
    (FlacEncoderUnmovable.finish exEncStInit exEnvOk).1 = .ok ∧
      FlacEncoderUnmovable.finish (FlacEncoderUnmovable.finish exEncStInit exEnvOk).2.1
          ⟨false, false, false, false, 7⟩
        = (.ok, (FlacEncoderUnmovable.finish exEncStInit exEnvOk).2.1, []) :=
  ⟨by decide,
    C10_finish_idempotent exEncStInit exEnvOk ⟨false, false, false, false, 7⟩ (by decide)⟩

end FlacRs
